import Mathlib

/-!
Shallow embedding of the `regula` rule engine (package `rule`, the server
HTTP layer, and the ruleset service protocol), translated from the Go
sources.  Go machine integers are modelled as `Int`/`Nat` with explicit
range checks where the source performs them (`strconv.ParseInt`), Go
`(T, error)` returns become `Except`, Go panics become an explicit
`panics` outcome, and Go strings are modelled as Lean `String` with byte
access through UTF-8 encoding (Go strings are byte strings compared
bytewise; UTF-8 code-point order coincides with byte order).
-/

/-- Bytes of a Go string (`[]byte(s)`), as naturals below 256. -/
def stringBytes (s : String) : List Nat :=
  s.toUTF8.data.toList.map (fun b => b.toNat)

/-- Go bytewise lexicographic `<` on byte lists. -/
def bytesLT : List Nat → List Nat → Bool
  | [], [] => false
  | [], _ :: _ => true
  | _ :: _, [] => false
  | a :: as, b :: bs => if a < b then true else if b < a then false else bytesLT as bs

/-- Go string `s < t` (bytewise lexicographic, as in the Go `<` on strings). -/
def goStrLT (s t : String) : Bool := bytesLT (stringBytes s) (stringBytes t)

/-- Go string `s <= t`. -/
def goStrLE (s t : String) : Bool := goStrLT s t || s == t

/-- Decimal digits of `n`, least significant first; the first argument
is fuel (`n` itself always suffices since `n / 10` shrinks). -/
def revDigitsAux : Nat → Nat → List Nat
  | 0, _ => []
  | fuel + 1, n => if n = 0 then [] else n % 10 :: revDigitsAux fuel (n / 10)

/-- Decimal digits of `n`, least significant first. -/
def revDigits (n : Nat) : List Nat := revDigitsAux n n

/-- Decimal rendering of a natural number. -/
def formatNat (n : Nat) : String :=
  if n = 0 then "0"
  else String.mk ((revDigits n).reverse.map (fun d => Char.ofNat (48 + d)))

/-- `strconv.FormatInt(i, 10)`: decimal rendering of an int64. -/
def formatInt (i : Int) : String :=
  if i < 0 then "-" ++ formatNat i.natAbs else formatNat i.natAbs

/-- `strconv.FormatBool`. -/
def formatBool (b : Bool) : String := if b then "true" else "false"

/-- Decimal digits helper: value of a list of ASCII digit characters. -/
def digitsVal : List Char → Nat
  | [] => 0
  | c :: cs => (c.toNat - 48) * 10 ^ cs.length + digitsVal cs

/-- All characters are ASCII digits. -/
def allDigits (l : List Char) : Bool := l.all (fun c => 48 ≤ c.toNat && c.toNat ≤ 57)

/-- `strconv.ParseInt(s, 10, 64)`: optional sign, one or more ASCII
digits, and a signed 64-bit range check; any other input is an error
(`none`). -/
def go_parseInt (s : String) : Option Int :=
  let chars := s.data
  let neg := chars.head? == some '-'
  let signed := neg || (chars.head? == some '+')
  let digs := if signed then chars.tail else chars
  if digs.isEmpty then none
  else if !allDigits digs then none
  else
    let n : Int := if neg then -(digitsVal digs : Int) else (digitsVal digs : Int)
    if n < -(2 ^ 63) || 2 ^ 63 - 1 < n then none else some n

/-- `strconv.ParseBool`: the exact set of literals Go accepts. -/
def go_parseBool (s : String) : Option Bool :=
  if s = "1" || s = "t" || s = "T" || s = "true" || s = "TRUE" || s = "True" then some true
  else if s = "0" || s = "f" || s = "F" || s = "false" || s = "FALSE" || s = "False" then some false
  else none

/-- Fractional-part characters: digits after the dot, as a rational. -/
def fracVal (l : List Char) : ℚ := (digitsVal l : ℚ) / (10 : ℚ) ^ l.length

/-- `strconv.ParseFloat(s, 64)`, restricted to the plain decimal forms
`[+-]digits[.digits]` and `[+-].digits` that this codebase produces and
consumes.  Go float64 values are abstracted to exact rationals: the
binary-rounding step of IEEE-754, the exponent syntax, and the special
literals (`Inf`, `NaN`, hex floats) are outside the behaviour any claim
observes and are not modelled. -/
def go_parseFloat (s : String) : Option ℚ :=
  let chars := s.data
  let (neg, rest) :=
    match chars with
    | '-' :: r => (true, r)
    | '+' :: r => (false, r)
    | r => (false, r)
  let intPart := rest.takeWhile (fun c => 48 ≤ c.toNat && c.toNat ≤ 57)
  let rest2 := rest.drop intPart.length
  match rest2 with
  | [] =>
      if intPart.isEmpty then none
      else some (if neg then -(digitsVal intPart : ℚ) else (digitsVal intPart : ℚ))
  | '.' :: fracChars =>
      if !allDigits fracChars then none
      else if intPart.isEmpty && fracChars.isEmpty then none
      else
        let m : ℚ := (digitsVal intPart : ℚ) + fracVal fracChars
        some (if neg then -m else m)
  | _ => none

/-- `strconv.FormatFloat(f, 'f', 6, 64)`: fixed six fractional digits.
Rounding of the abstracted rational is to the nearest multiple of
`10⁻⁶` (ties away from zero on the magnitude); exact on every value the
claims touch. -/
def formatFloat (q : ℚ) : String :=
  let n : Nat := (Int.floor (|q| * 1000000 + 1 / 2)).toNat
  let ip := n / 1000000
  let fp := n % 1000000
  let fpStr := toString fp
  let pad := String.mk (List.replicate (6 - fpStr.length) '0')
  (if q < 0 && n ≠ 0 then "-" else "") ++ toString ip ++ "." ++ pad ++ fpStr

/-- Errors produced by the `rule` package.  `msg` models `errors.New` /
`fmt.Errorf` messages, `paramNotFound` and `paramTypeMismatch` model
`rule.ErrParamNotFound` / `rule.ErrParamTypeMismatch`, and `parseError`
models a `strconv.NumError` (function name and offending input). -/
inductive EvalError where
  | msg (s : String)
  | paramNotFound
  | paramTypeMismatch
  | parseError (func num : String)
deriving DecidableEq, Repr

instance exceptDecEq {ε α : Type} [DecidableEq ε] [DecidableEq α] : DecidableEq (Except ε α)
  | .ok a, .ok b =>
    if h : a = b then .isTrue (by rw [h]) else .isFalse (by intro he; cases he; exact h rfl)
  | .ok _, .error _ => .isFalse (by intro h; cases h)
  | .error _, .ok _ => .isFalse (by intro h; cases h)
  | .error e, .error f =>
    if h : e = f then .isTrue (by rw [h]) else .isFalse (by intro he; cases he; exact h rfl)

/-- `rule.Value` (`rule/expr.go`): kind, type and data, all strings. -/
structure Value where
  kind : String
  type : String
  data : String
deriving DecidableEq, Repr

/-- `newValue` (`rule/expr.go`). -/
def newValue (typ data : String) : Value := ⟨"value", typ, data⟩

/-- `rule.BoolValue`. -/
def BoolValue (value : Bool) : Value := newValue "bool" (formatBool value)

/-- `rule.StringValue`. -/
def StringValue (value : String) : Value := newValue "string" value

/-- `rule.Int64Value`. -/
def Int64Value (value : Int) : Value := newValue "int64" (formatInt value)

/-- `rule.Float64Value` (data via `strconv.FormatFloat(v, 'f', 6, 64)`). -/
def Float64Value (value : ℚ) : Value := newValue "float64" (formatFloat value)

/-- The fragment of `go/token.Token` reaching `Value.compare`: only
`token.EQL` is ever passed; one further constructor keeps the source's
early return on other tokens meaningful. -/
inductive GoToken where
  | EQL
  | NEQ
deriving DecidableEq

/-- `Value.compare` (`rule/expr.go`): any token other than `EQL` yields
false; `EQL` compares the full structs (`*v == *other`). -/
def Value.compare (v : Value) (op : GoToken) (other : Value) : Bool :=
  if op ≠ GoToken.EQL then false
  else v == other

/-- `Value.Equal`. -/
def Value.Equal (v other : Value) : Bool := v.compare GoToken.EQL other

/-- `parseBoolValues` (`rule/expr.go`): parse both datas as bools,
failing on the first that does not parse. -/
def parseBoolValues (v1 v2 : Value) : Except EvalError (Bool × Bool) :=
  match go_parseBool v1.data with
  | none => .error (.parseError "ParseBool" v1.data)
  | some b1 =>
    match go_parseBool v2.data with
    | none => .error (.parseError "ParseBool" v2.data)
    | some b2 => .ok (b1, b2)

/-- `parseInt64Values` (`rule/expr.go`). -/
def parseInt64Values (v1 v2 : Value) : Except EvalError (Int × Int) :=
  match go_parseInt v1.data with
  | none => .error (.parseError "ParseInt" v1.data)
  | some i1 =>
    match go_parseInt v2.data with
    | none => .error (.parseError "ParseInt" v2.data)
    | some i2 => .ok (i1, i2)

/-- `parseFloat64Values` (`rule/expr.go`). -/
def parseFloat64Values (v1 v2 : Value) : Except EvalError (ℚ × ℚ) :=
  match go_parseFloat v1.data with
  | none => .error (.parseError "ParseFloat" v1.data)
  | some f1 =>
    match go_parseFloat v2.data with
    | none => .error (.parseError "ParseFloat" v2.data)
    | some f2 => .ok (f1, f2)

/-- `Value.GT` (`rule/expr.go:638`): dispatch on the receiver's `Type`
only; the other operand's `Type` is never examined. -/
def Value.GT (v other : Value) : Except EvalError Bool :=
  match v.type with
  | "bool" =>
    match parseBoolValues v other with
    | .error e => .error e
    | .ok (v1, v2) =>
      if !v1 then .ok false
      else if v2 then .ok false
      else .ok true
  | "string" =>
    if goStrLE v.data other.data then .ok false else .ok true
  | "int64" =>
    match parseInt64Values v other with
    | .error e => .error e
    | .ok (v1, v2) => if v1 ≤ v2 then .ok false else .ok true
  | "float64" =>
    match parseFloat64Values v other with
    | .error e => .error e
    | .ok (v1, v2) => if v1 ≤ v2 then .ok false else .ok true
  | t => .error (.msg ("unknown Value type: " ++ t))

/-- `Value.GTE` (`rule/expr.go:685`). -/
def Value.GTE (v other : Value) : Except EvalError Bool :=
  match v.type with
  | "bool" =>
    match parseBoolValues v other with
    | .error e => .error e
    | .ok (v1, v2) => if !v1 && v2 then .ok false else .ok true
  | "string" =>
    if goStrLT v.data other.data then .ok false else .ok true
  | "int64" =>
    match parseInt64Values v other with
    | .error e => .error e
    | .ok (v1, v2) => if v1 < v2 then .ok false else .ok true
  | "float64" =>
    match parseFloat64Values v other with
    | .error e => .error e
    | .ok (v1, v2) => if v1 < v2 then .ok false else .ok true
  | t => .error (.msg ("unknown Value type: " ++ t))

/-- `Value.LT` (`rule/expr.go:727`). -/
def Value.LT (v other : Value) : Except EvalError Bool :=
  match v.type with
  | "bool" =>
    match parseBoolValues v other with
    | .error e => .error e
    | .ok (v1, v2) =>
      if v1 then .ok false
      else if !v2 then .ok false
      else .ok true
  | "string" =>
    if goStrLE other.data v.data then .ok false else .ok true
  | "int64" =>
    match parseInt64Values v other with
    | .error e => .error e
    | .ok (v1, v2) => if v2 ≤ v1 then .ok false else .ok true
  | "float64" =>
    match parseFloat64Values v other with
    | .error e => .error e
    | .ok (v1, v2) => if v2 ≤ v1 then .ok false else .ok true
  | t => .error (.msg ("unknown Value type: " ++ t))

/-- `Value.LTE` (`rule/expr.go:774`).  Note the `int64` branch: a parse
failure is returned as `(false, nil)` — the error is dropped — unlike
the other three comparison methods. -/
def Value.LTE (v other : Value) : Except EvalError Bool :=
  match v.type with
  | "bool" =>
    match parseBoolValues v other with
    | .error e => .error e
    | .ok (v1, v2) => if v1 && !v2 then .ok false else .ok true
  | "string" =>
    if goStrLT other.data v.data then .ok false else .ok true
  | "int64" =>
    match parseInt64Values v other with
    | .error _ => .ok false
    | .ok (v1, v2) => if v2 < v1 then .ok false else .ok true
  | "float64" =>
    match parseFloat64Values v other with
    | .error e => .error e
    | .ok (v1, v2) => if v2 < v1 then .ok false else .ok true
  | t => .error (.msg ("unknown Value type: " ++ t))

/-- A dynamically-typed parameter value, as stored in a `regula.Params`
map (`map[string]interface{}`) or in a `let` scope frame. -/
inductive PValue where
  | s (v : String)
  | b (v : Bool)
  | i (v : Int)
  | f (v : ℚ)
deriving DecidableEq, Repr

/-- The closed world of `rule.Params` values reachable in this
codebase: the nil interface (`nil`), a non-nil interface holding a nil
`*stack` pointer (`nilStack` — what `exprLet.Eval` passes to the body
when the declared type is unsupported; in Go an interface wrapping a
nil pointer is *not* `== nil`), the host-side `regula.Params` map bag,
and the `let`-introduced scope frames. -/
inductive Params where
  | nil
  | nilStack
  | bag (entries : List (String × PValue))
  | stack (name : String) (val : PValue) (parent : Params)
deriving DecidableEq, Repr

/-- Outcome of a typed getter: value, Go error, or Go runtime panic
(calling a method on a nil `Params` interface panics). -/
inductive GetOutcome (α : Type) where
  | ok (a : α)
  | err (e : EvalError)
  | panics (msg : String)
deriving DecidableEq, Repr

/-- First-match lookup in a bag's entries (Go map keys are unique). -/
def lookupEntry : List (String × PValue) → String → Option PValue
  | [], _ => none
  | (k, v) :: rest, key => if k = key then some v else lookupEntry rest key

/-- Modelled from the spec: `regula.Params.GetString` — the host bag's
typed getter (source file absent from src/; behaviour pinned by
`param_test.go`: missing key → `ErrParamNotFound`, key bound to a
non-string → `ErrParamTypeMismatch`) — and the stack params view
(`newStack`, absent from src/): "a lookup first checks the local frame,
then delegates to the parent".  A getter invoked on the interface
holding a nil `*stack` is a Go method call on a nil receiver; any
implementation whose getters read the receiver's fields (as the spec's
local-frame-then-parent lookup must) dereferences the nil pointer and
panics with the runtime nil-pointer error. -/
def Params.GetString : Params → String → GetOutcome String
  | .nil, _ => .panics "nil interface method call"
  | .nilStack, _ => .panics "runtime error: invalid memory address or nil pointer dereference"
  | .bag entries, key =>
    match lookupEntry entries key with
    | none => .err .paramNotFound
    | some (.s v) => .ok v
    | some _ => .err .paramTypeMismatch
  | .stack n v parent, key =>
    if key = n then
      match v with
      | .s sv => .ok sv
      | _ => .err .paramTypeMismatch
    else parent.GetString key

/-- Modelled from the spec: `regula.Params.GetBool` and the stack view;
see `Params.GetString`. -/
def Params.GetBool : Params → String → GetOutcome Bool
  | .nil, _ => .panics "nil interface method call"
  | .nilStack, _ => .panics "runtime error: invalid memory address or nil pointer dereference"
  | .bag entries, key =>
    match lookupEntry entries key with
    | none => .err .paramNotFound
    | some (.b v) => .ok v
    | some _ => .err .paramTypeMismatch
  | .stack n v parent, key =>
    if key = n then
      match v with
      | .b bv => .ok bv
      | _ => .err .paramTypeMismatch
    else parent.GetBool key

/-- Modelled from the spec: `regula.Params.GetInt64` and the stack view;
see `Params.GetString`. -/
def Params.GetInt64 : Params → String → GetOutcome Int
  | .nil, _ => .panics "nil interface method call"
  | .nilStack, _ => .panics "runtime error: invalid memory address or nil pointer dereference"
  | .bag entries, key =>
    match lookupEntry entries key with
    | none => .err .paramNotFound
    | some (.i v) => .ok v
    | some _ => .err .paramTypeMismatch
  | .stack n v parent, key =>
    if key = n then
      match v with
      | .i iv => .ok iv
      | _ => .err .paramTypeMismatch
    else parent.GetInt64 key

/-- Modelled from the spec: `regula.Params.GetFloat64` and the stack
view; see `Params.GetString`. -/
def Params.GetFloat64 : Params → String → GetOutcome ℚ
  | .nil, _ => .panics "nil interface method call"
  | .nilStack, _ => .panics "runtime error: invalid memory address or nil pointer dereference"
  | .bag entries, key =>
    match lookupEntry entries key with
    | none => .err .paramNotFound
    | some (.f v) => .ok v
    | some _ => .err .paramTypeMismatch
  | .stack n v parent, key =>
    if key = n then
      match v with
      | .f fv => .ok fv
      | _ => .err .paramTypeMismatch
    else parent.GetFloat64 key

/-- `rule.Param` (`rule/expr.go`): kind, type and name. -/
structure Param where
  kind : String
  type : String
  name : String
deriving DecidableEq, Repr

/-- `rule.StringParam`. -/
def StringParam (name : String) : Param := ⟨"param", "string", name⟩

/-- `rule.BoolParam`. -/
def BoolParam (name : String) : Param := ⟨"param", "bool", name⟩

/-- `rule.Int64Param`. -/
def Int64Param (name : String) : Param := ⟨"param", "int64", name⟩

/-- `rule.Float64Param`. -/
def Float64Param (name : String) : Param := ⟨"param", "float64", name⟩

/-- Result of evaluating an expression: a `*Value`, a Go error, or a Go
runtime panic. -/
inductive EvalOutcome where
  | ok (v : Value)
  | err (e : EvalError)
  | panics (msg : String)
deriving DecidableEq, Repr

/-- `Param.Eval` (`rule/expr.go:544`): nil check, then dispatch on the
declared type through the bag's typed getters; any other type is
"unsupported param type".  The `params == nil` check fires only for the
nil interface: a non-nil interface holding a nil `*stack` pointer does
not compare equal to `nil` in Go, so the check passes it through to the
getters. -/
def Param.eval (p : Param) (params : Params) : EvalOutcome :=
  if params = .nil then .err (.msg "params is nil")
  else
    match p.type with
    | "string" =>
      match params.GetString p.name with
      | .ok v => .ok (StringValue v)
      | .err e => .err e
      | .panics m => .panics m
    | "bool" =>
      match params.GetBool p.name with
      | .ok v => .ok (BoolValue v)
      | .err e => .err e
      | .panics m => .panics m
    | "int64" =>
      match params.GetInt64 p.name with
      | .ok v => .ok (Int64Value v)
      | .err e => .err e
      | .panics m => .panics m
    | "float64" =>
      match params.GetFloat64 p.name with
      | .ok v => .ok (Float64Value v)
      | .err e => .err e
      | .panics m => .panics m
    | _ => .err (.msg "unsupported param type")

/-- The FNV-1 32-bit hash (`hash/fnv.New32` + `Write` + `Sum32`):
starting from the offset basis, each byte step multiplies by the FNV
prime modulo 2³² and then xors the byte in. -/
def fnvSum32 (bytes : List Nat) : Nat :=
  bytes.foldl (fun h b => (h * 16777619 % 4294967296) ^^^ b % 256) 2166136261

mutual

/-- The expression AST (`rule.Expr`).  In Go every non-leaf node is a
distinct struct (`exprNot`, `exprOr`, …) embedding `operator` with a
`kind` string and an operand slice; the embedding gives each kind its
own constructor carrying the operand list.  Operand slices are spelled
with the companion `ExprList` so that all recursion over the AST is
structural. -/
inductive Expr where
  | valueE (v : Value)
  | paramE (p : Param)
  | notE (operands : ExprList)
  | andE (operands : ExprList)
  | orE (operands : ExprList)
  | eqE (operands : ExprList)
  | inE (operands : ExprList)
  | gtE (operands : ExprList)
  | gteE (operands : ExprList)
  | ltE (operands : ExprList)
  | lteE (operands : ExprList)
  | fnvE (operands : ExprList)
  | percentileE (operands : ExprList)
  | letE (operands : ExprList)

/-- An operand slice (`[]Expr`). -/
inductive ExprList where
  | nil
  | cons (head : Expr) (tail : ExprList)

end

/-- Concatenation of operand slices. -/
def ExprList.append : ExprList → ExprList → ExprList
  | .nil, l => l
  | .cons x xs, l => .cons x (xs.append l)

/-- Length of an operand slice. -/
def ExprList.length : ExprList → Nat
  | .nil => 0
  | .cons _ xs => xs.length + 1

/-- Every element of the slice satisfies `P`. -/
def ExprList.Forall (P : Expr → Prop) : ExprList → Prop
  | .nil => True
  | .cons x xs => P x ∧ xs.Forall P

/-- `rule.Not`. -/
def Rule.Not (e : Expr) : Expr := .notE (.cons e .nil)

/-- `rule.Or` (`vN` is Go's variadic tail). -/
def Rule.Or (v1 v2 : Expr) (vN : ExprList) : Expr := .orE (.cons v1 (.cons v2 vN))

/-- `rule.And`. -/
def Rule.And (v1 v2 : Expr) (vN : ExprList) : Expr := .andE (.cons v1 (.cons v2 vN))

/-- `rule.Eq`. -/
def Rule.Eq (v1 v2 : Expr) (vN : ExprList) : Expr := .eqE (.cons v1 (.cons v2 vN))

/-- `rule.In`. -/
def Rule.In (v e1 : Expr) (eN : ExprList) : Expr := .inE (.cons v (.cons e1 eN))

/-- `rule.GT`. -/
def Rule.GT (v1 v2 : Expr) (vN : ExprList) : Expr := .gtE (.cons v1 (.cons v2 vN))

/-- `rule.GTE`. -/
def Rule.GTE (v1 v2 : Expr) (vN : ExprList) : Expr := .gteE (.cons v1 (.cons v2 vN))

/-- `rule.LT`. -/
def Rule.LT (v1 v2 : Expr) (vN : ExprList) : Expr := .ltE (.cons v1 (.cons v2 vN))

/-- `rule.LTE`. -/
def Rule.LTE (v1 v2 : Expr) (vN : ExprList) : Expr := .lteE (.cons v1 (.cons v2 vN))

/-- `rule.FNV`. -/
def Rule.FNV (v : Expr) : Expr := .fnvE (.cons v .nil)

/-- `rule.Percentile`. -/
def Rule.Percentile (v p : Expr) : Expr := .percentileE (.cons v (.cons p .nil))

/-- `rule.Let` (`rule/control_expr.go:44`). -/
def Rule.Let (parameter value body : Expr) : Expr :=
  .letE (.cons parameter (.cons value (.cons body .nil)))

/-- `rule.True`. -/
def Rule.True : Expr := .valueE (BoolValue true)

mutual

/-- `Eval` over the AST, one case per Go `Eval` method
(`rule/expr.go`, `rule/control_expr.go`).  A `*Value` evaluates to
itself; a `*Param` looks itself up; each operator mirrors its Go body
including the operand-count and operand-type checks.

In the `percentile` case the Go code runs
`exprToInt64(FNV(n.operands[0]), params)` — it wraps operand 0 in a
fresh one-operand `fnv` node, evaluates it and parses the resulting
value's data with `strconv.ParseInt`; that composition is unfolded here
(evaluate the operand, hash its data bytes, wrap as `Int64Value`, parse
the data back) so that the recursion stays structural.

In the `let` case the Go code type-asserts operand 0 to `*Param`
(panicking otherwise), binds the evaluated operand 1 under the declared
type (`exprToInt64`/`exprToFloat64`/`exprToBool` applied to the already
evaluated `*Value` reduce to parsing its data), and falls through with
`scopedParams` still a nil `*stack` when the declared type is none of
the four concrete types; the `Params` interface the body then receives
wraps a nil `*stack` pointer and is *not* the nil interface — modelled
by the distinct `Params.nilStack`. -/
def eval : Expr → Params → EvalOutcome
  | .valueE v, _ => .ok v
  | .paramE p, params => p.eval params
  | .notE ops, params =>
    match ops with
    | .nil => .err (.msg "invalid number of operands in Not func")
    | .cons op _ =>
      match eval op params with
      | .panics m => .panics m
      | .err e => .err e
      | .ok v =>
        if v.type ≠ "bool" then .err (.msg "invalid operand type for Not func")
        else if v.Equal (BoolValue true) then .ok (BoolValue false)
        else .ok (BoolValue true)
  | .orE ops, params =>
    if ops.length < 2 then .err (.msg "invalid number of operands in Or func")
    else
      match ops with
      | .nil => .err (.msg "invalid number of operands in Or func")
      | .cons opA rest =>
        match eval opA params with
        | .panics m => .panics m
        | .err e => .err e
        | .ok vA =>
          if vA.type ≠ "bool" then .err (.msg "invalid operand type for Or func")
          else if vA.Equal (BoolValue true) then .ok vA
          else orRest rest params
  | .andE ops, params =>
    if ops.length < 2 then .err (.msg "invalid number of operands in And func")
    else
      match ops with
      | .nil => .err (.msg "invalid number of operands in And func")
      | .cons opA rest =>
        match eval opA params with
        | .panics m => .panics m
        | .err e => .err e
        | .ok vA =>
          if vA.type ≠ "bool" then .err (.msg "invalid operand type for And func")
          else if vA.Equal (BoolValue false) then .ok vA
          else andRest rest params
  | .eqE ops, params =>
    if ops.length < 2 then .err (.msg "invalid number of operands in Eq func")
    else
      match ops with
      | .nil => .err (.msg "invalid number of operands in Eq func")
      | .cons opA rest =>
        match eval opA params with
        | .panics m => .panics m
        | .err e => .err e
        | .ok vA => eqRest vA rest params
  | .inE ops, params =>
    if ops.length < 2 then .err (.msg "invalid number of operands in In func")
    else
      match ops with
      | .nil => .err (.msg "invalid number of operands in In func")
      | .cons toFind rest =>
        match eval toFind params with
        | .panics m => .panics m
        | .err e => .err e
        | .ok vA => inRest vA rest params
  | .gtE ops, params =>
    if ops.length < 2 then .err (.msg "invalid number of operands in GT func")
    else
      match ops with
      | .nil => .err (.msg "invalid number of operands in GT func")
      | .cons opA rest =>
        match eval opA params with
        | .panics m => .panics m
        | .err e => .err e
        | .ok vA => gtRest vA rest params
  | .gteE ops, params =>
    if ops.length < 2 then .err (.msg "invalid number of operands in GTE func")
    else
      match ops with
      | .nil => .err (.msg "invalid number of operands in GTE func")
      | .cons opA rest =>
        match eval opA params with
        | .panics m => .panics m
        | .err e => .err e
        | .ok vA => gteRest vA rest params
  | .ltE ops, params =>
    if ops.length < 2 then .err (.msg "invalid number of operands in LT func")
    else
      match ops with
      | .nil => .err (.msg "invalid number of operands in LT func")
      | .cons opA rest =>
        match eval opA params with
        | .panics m => .panics m
        | .err e => .err e
        | .ok vA => ltRest vA rest params
  | .lteE ops, params =>
    if ops.length < 2 then .err (.msg "invalid number of operands in LTE func")
    else
      match ops with
      | .nil => .err (.msg "invalid number of operands in LTE func")
      | .cons opA rest =>
        match eval opA params with
        | .panics m => .panics m
        | .err e => .err e
        | .ok vA => lteRest vA rest params
  | .fnvE ops, params =>
    if ops.length ≠ 1 then .err (.msg "invalid number of operands in FNV func")
    else
      match ops with
      | .nil => .err (.msg "invalid number of operands in FNV func")
      | .cons op _ =>
        match eval op params with
        | .panics m => .panics m
        | .err e => .err e
        | .ok v => .ok (Int64Value (fnvSum32 (stringBytes v.data)))
  | .percentileE ops, params =>
    if ops.length ≠ 2 then .err (.msg "invalid number of operands in Percentile func")
    else
      match ops with
      | .cons a (.cons b _) =>
        match eval a params with
        | .panics m => .panics m
        | .err e => .err e
        | .ok va =>
          match go_parseInt (Int64Value (fnvSum32 (stringBytes va.data))).data with
          | none => .err (.parseError "ParseInt" (Int64Value (fnvSum32 (stringBytes va.data))).data)
          | some v =>
            match eval b params with
            | .panics m => .panics m
            | .err e => .err e
            | .ok vb =>
              match go_parseInt vb.data with
              | none => .err (.parseError "ParseInt" vb.data)
              | some p =>
                if Int.tmod v 100 ≤ p then .ok (BoolValue true) else .ok (BoolValue false)
      | _ => .err (.msg "invalid number of operands in Percentile func")
  | .letE ops, params =>
    match ops with
    | .cons e0 (.cons e1 (.cons e2 _)) =>
      match e0 with
      | .paramE symb =>
        match eval e1 params with
        | .panics m => .panics m
        | .err e => .err e
        | .ok val =>
          match symb.type with
          | "string" => eval e2 (.stack symb.name (.s val.data) params)
          | "int64" =>
            match go_parseInt val.data with
            | none => .err (.parseError "ParseInt" val.data)
            | some i => eval e2 (.stack symb.name (.i i) params)
          | "float64" =>
            match go_parseFloat val.data with
            | none => .err (.parseError "ParseFloat" val.data)
            | some f => eval e2 (.stack symb.name (.f f) params)
          | "bool" =>
            match go_parseBool val.data with
            | none => .err (.parseError "ParseBool" val.data)
            | some b => eval e2 (.stack symb.name (.b b) params)
          | _ => eval e2 .nilStack
      | _ => .panics "interface conversion: rule.Expr is not *rule.Param"
    | _ => .panics "index out of range"
termination_by structural e params => e

/-- The `i := 1; i < len(operands)` loop of `exprOr.Eval`. -/
def orRest : ExprList → Params → EvalOutcome
  | .nil, _ => .ok (BoolValue false)
  | .cons x xs, params =>
    match eval x params with
    | .panics m => .panics m
    | .err e => .err e
    | .ok vB =>
      if vB.type ≠ "bool" then .err (.msg "invalid operand type for Or func")
      else if vB.Equal (BoolValue true) then .ok vB
      else orRest xs params
termination_by structural l params => l

/-- The loop of `exprAnd.Eval`. -/
def andRest : ExprList → Params → EvalOutcome
  | .nil, _ => .ok (BoolValue true)
  | .cons x xs, params =>
    match eval x params with
    | .panics m => .panics m
    | .err e => .err e
    | .ok vB =>
      if vB.type ≠ "bool" then .err (.msg "invalid operand type for And func")
      else if vB.Equal (BoolValue false) then .ok vB
      else andRest xs params
termination_by structural l params => l

/-- The loop of `exprEq.Eval`: compare `vA` against every remaining
operand. -/
def eqRest : Value → ExprList → Params → EvalOutcome
  | _, .nil, _ => .ok (BoolValue true)
  | vA, .cons x xs, params =>
    match eval x params with
    | .panics m => .panics m
    | .err e => .err e
    | .ok vB => if !vA.Equal vB then .ok (BoolValue false) else eqRest vA xs params
termination_by structural vA l params => l

/-- The loop of `exprIn.Eval`. -/
def inRest : Value → ExprList → Params → EvalOutcome
  | _, .nil, _ => .ok (BoolValue false)
  | vA, .cons x xs, params =>
    match eval x params with
    | .panics m => .panics m
    | .err e => .err e
    | .ok vB => if vA.Equal vB then .ok (BoolValue true) else inRest vA xs params
termination_by structural vA l params => l

/-- The loop of `exprGT.Eval`: note Go compares the *first* operand
`vA` against each later operand (`vA` is never advanced). -/
def gtRest : Value → ExprList → Params → EvalOutcome
  | _, .nil, _ => .ok (BoolValue true)
  | vA, .cons x xs, params =>
    match eval x params with
    | .panics m => .panics m
    | .err e => .err e
    | .ok vB =>
      match vA.GT vB with
      | .error e => .err e
      | .ok res => if !res then .ok (BoolValue false) else gtRest vA xs params
termination_by structural vA l params => l

/-- The loop of `exprGTE.Eval`. -/
def gteRest : Value → ExprList → Params → EvalOutcome
  | _, .nil, _ => .ok (BoolValue true)
  | vA, .cons x xs, params =>
    match eval x params with
    | .panics m => .panics m
    | .err e => .err e
    | .ok vB =>
      match vA.GTE vB with
      | .error e => .err e
      | .ok res => if !res then .ok (BoolValue false) else gteRest vA xs params
termination_by structural vA l params => l

/-- The loop of `exprLT.Eval`. -/
def ltRest : Value → ExprList → Params → EvalOutcome
  | _, .nil, _ => .ok (BoolValue true)
  | vA, .cons x xs, params =>
    match eval x params with
    | .panics m => .panics m
    | .err e => .err e
    | .ok vB =>
      match vA.LT vB with
      | .error e => .err e
      | .ok res => if !res then .ok (BoolValue false) else ltRest vA xs params
termination_by structural vA l params => l

/-- The loop of `exprLTE.Eval`. -/
def lteRest : Value → ExprList → Params → EvalOutcome
  | _, .nil, _ => .ok (BoolValue true)
  | vA, .cons x xs, params =>
    match eval x params with
    | .panics m => .panics m
    | .err e => .err e
    | .ok vB =>
      match vA.LTE vB with
      | .error e => .err e
      | .ok res => if !res then .ok (BoolValue false) else lteRest vA xs params
termination_by structural vA l params => l

end

/-- `exprToInt64` (`rule/expr.go:864`): evaluate, then
`strconv.ParseInt` the value's data. -/
def exprToInt64 (e : Expr) (params : Params) : GetOutcome Int :=
  match eval e params with
  | .panics m => .panics m
  | .err e2 => .err e2
  | .ok v =>
    match go_parseInt v.data with
    | none => .err (.parseError "ParseInt" v.data)
    | some i => .ok i

/-! ## JSON wire form (`rule/json.go`)

A JSON document reaching the expression decoders is modelled by the
four string fields the decoders read (`kind`, `type`, `data`, `name`;
a field absent from the document is the empty string, exactly the zero
value `encoding/json` assigns to a missing string field) together with
the `operands` array. -/

mutual

/-- A JSON object as seen by `unmarshalExpr` / `operator.MarshalJSON`. -/
inductive JNode where
  | node (kind type data name : String) (operands : JNodeList)

/-- The `operands` array of a JSON object. -/
inductive JNodeList where
  | nil
  | cons (head : JNode) (tail : JNodeList)

end

/-- The `kind` field (what `gjson.Get(op, "kind")` extracts). -/
def JNode.kind : JNode → String
  | .node k _ _ _ _ => k

mutual

/-- `operator.MarshalJSON` (`rule/json.go:32`) together with the
struct-tag marshalling of `Value` and `Param`: a `Value` writes
`kind`/`type`/`data`, a `Param` writes `kind`/`type`/`name`, and an
operator writes its `kind` string and its marshalled operands.  The
`let` operator marshals under kind `"let"` (its registered opcode in
`rule/control_expr.go`). -/
def marshalExpr : Expr → JNode
  | .valueE v => .node v.kind v.type v.data "" .nil
  | .paramE p => .node p.kind p.type "" p.name .nil
  | .notE ops => .node "not" "" "" "" (marshalList ops)
  | .andE ops => .node "and" "" "" "" (marshalList ops)
  | .orE ops => .node "or" "" "" "" (marshalList ops)
  | .eqE ops => .node "eq" "" "" "" (marshalList ops)
  | .inE ops => .node "in" "" "" "" (marshalList ops)
  | .gtE ops => .node "gt" "" "" "" (marshalList ops)
  | .gteE ops => .node "gte" "" "" "" (marshalList ops)
  | .ltE ops => .node "lt" "" "" "" (marshalList ops)
  | .lteE ops => .node "lte" "" "" "" (marshalList ops)
  | .fnvE ops => .node "fnv" "" "" "" (marshalList ops)
  | .percentileE ops => .node "percentile" "" "" "" (marshalList ops)
  | .letE ops => .node "let" "" "" "" (marshalList ops)
termination_by structural e => e

/-- Marshalling of an operand slice (`json.Marshal` of `[]Expr`). -/
def marshalList : ExprList → JNodeList
  | .nil => .nil
  | .cons x xs => .cons (marshalExpr x) (marshalList xs)
termination_by structural l => l

end

mutual

/-- `unmarshalExpr` (`rule/json.go:75`) composed with the `kind`
extraction of `operands.UnmarshalJSON` (`gjson.Get(op, "kind")`): the
switch dispatches on the `kind` field; `"value"` and `"param"` decode
their struct fields, each known operator kind decodes its operands
recursively, and every other kind — `"let"` included — is rejected
with `unknown expression kind`. -/
def unmarshalExpr : JNode → Except String Expr
  | .node kind typ data name ops =>
    match kind with
    | "value" => .ok (.valueE ⟨kind, typ, data⟩)
    | "param" => .ok (.paramE ⟨kind, typ, name⟩)
    | "eq" =>
      match unmarshalOperands ops with
      | .error e => .error e
      | .ok l => .ok (.eqE l)
    | "in" =>
      match unmarshalOperands ops with
      | .error e => .error e
      | .ok l => .ok (.inE l)
    | "not" =>
      match unmarshalOperands ops with
      | .error e => .error e
      | .ok l => .ok (.notE l)
    | "and" =>
      match unmarshalOperands ops with
      | .error e => .error e
      | .ok l => .ok (.andE l)
    | "or" =>
      match unmarshalOperands ops with
      | .error e => .error e
      | .ok l => .ok (.orE l)
    | "gt" =>
      match unmarshalOperands ops with
      | .error e => .error e
      | .ok l => .ok (.gtE l)
    | "gte" =>
      match unmarshalOperands ops with
      | .error e => .error e
      | .ok l => .ok (.gteE l)
    | "percentile" =>
      match unmarshalOperands ops with
      | .error e => .error e
      | .ok l => .ok (.percentileE l)
    | "fnv" =>
      match unmarshalOperands ops with
      | .error e => .error e
      | .ok l => .ok (.fnvE l)
    | "lt" =>
      match unmarshalOperands ops with
      | .error e => .error e
      | .ok l => .ok (.ltE l)
    | "lte" =>
      match unmarshalOperands ops with
      | .error e => .error e
      | .ok l => .ok (.lteE l)
    | other => .error ("unknown expression kind " ++ other)
termination_by structural j => j

/-- `operands.UnmarshalJSON` (`rule/json.go:56`): decode each operand
in order, aborting on the first failure. -/
def unmarshalOperands : JNodeList → Except String ExprList
  | .nil => .ok .nil
  | .cons j js =>
    match unmarshalExpr j with
    | .error e => .error e
    | .ok e =>
      match unmarshalOperands js with
      | .error e2 => .error e2
      | .ok rest => .ok (.cons e rest)
termination_by structural l => l

end

mutual

/-- The AST is built by the builder API: every `Value` node carries
kind `"value"` and every `Param` node kind `"param"` (as `newValue`
and the `*Param` constructors always set). -/
def wellKinded : Expr → Bool
  | .valueE v => v.kind == "value"
  | .paramE p => p.kind == "param"
  | .notE ops => wellKindedList ops
  | .andE ops => wellKindedList ops
  | .orE ops => wellKindedList ops
  | .eqE ops => wellKindedList ops
  | .inE ops => wellKindedList ops
  | .gtE ops => wellKindedList ops
  | .gteE ops => wellKindedList ops
  | .ltE ops => wellKindedList ops
  | .lteE ops => wellKindedList ops
  | .fnvE ops => wellKindedList ops
  | .percentileE ops => wellKindedList ops
  | .letE ops => wellKindedList ops
termination_by structural e => e

/-- All operands are well-kinded. -/
def wellKindedList : ExprList → Bool
  | .nil => true
  | .cons x xs => wellKinded x && wellKindedList xs
termination_by structural l => l

end

mutual

/-- No `let` node occurs anywhere in the AST. -/
def letFree : Expr → Bool
  | .valueE _ => true
  | .paramE _ => true
  | .letE _ => false
  | .notE ops => letFreeList ops
  | .andE ops => letFreeList ops
  | .orE ops => letFreeList ops
  | .eqE ops => letFreeList ops
  | .inE ops => letFreeList ops
  | .gtE ops => letFreeList ops
  | .gteE ops => letFreeList ops
  | .ltE ops => letFreeList ops
  | .lteE ops => letFreeList ops
  | .fnvE ops => letFreeList ops
  | .percentileE ops => letFreeList ops
termination_by structural e => e

/-- No operand contains a `let` node. -/
def letFreeList : ExprList → Bool
  | .nil => true
  | .cons x xs => letFree x && letFreeList xs
termination_by structural l => l

end

/-! ## Rules, the ruleset service and the HTTP layer -/

mutual

/-- Structural equality of expressions (the identity notion the spec's
lifecycle uses for "the proposed rules differ from the current
latest"). -/
def exprBeq : Expr → Expr → Bool
  | .valueE v, .valueE w => v == w
  | .paramE p, .paramE q => p == q
  | .notE l, .notE m => exprListBeq l m
  | .andE l, .andE m => exprListBeq l m
  | .orE l, .orE m => exprListBeq l m
  | .eqE l, .eqE m => exprListBeq l m
  | .inE l, .inE m => exprListBeq l m
  | .gtE l, .gtE m => exprListBeq l m
  | .gteE l, .gteE m => exprListBeq l m
  | .ltE l, .ltE m => exprListBeq l m
  | .lteE l, .lteE m => exprListBeq l m
  | .fnvE l, .fnvE m => exprListBeq l m
  | .percentileE l, .percentileE m => exprListBeq l m
  | .letE l, .letE m => exprListBeq l m
  | _, _ => false
termination_by structural a b => a

/-- Structural equality of operand slices. -/
def exprListBeq : ExprList → ExprList → Bool
  | .nil, .nil => true
  | .cons x xs, .cons y ys => exprBeq x y && exprListBeq xs ys
  | _, _ => false
termination_by structural a b => a

end

/-- `rule.Rule` — a predicate expression paired with its result value.
Modelled from the spec: the `Rule` definition itself is absent from
src/ (only its builders and users appear); per §3 it "binds
predicate→value". -/
structure Rule where
  expr : Expr
  result : Value

/-- `rule.New`. -/
def Rule.New (e : Expr) (v : Value) : Rule := ⟨e, v⟩

/-- Structural equality of rules. -/
def ruleBeq (r s : Rule) : Bool := exprBeq r.expr s.expr && r.result == s.result

/-- Structural equality of rule lists. -/
def rulesBeq : List Rule → List Rule → Bool
  | [], [] => true
  | r :: rs, s :: ss => ruleBeq r s && rulesBeq rs ss
  | _, _ => false

/-- The state of one ruleset path in the store: the ordered list of
`(version_id, rules)` versions; the latest is the last entry. -/
structure RulesetState where
  versions : List (String × List Rule)

/-- Errors of the ruleset service (`api/service.go`):
`ErrRulesetNotFound`, `ErrRulesetNotModified`, validation errors
(matched by `api.IsValidationError`), and anything else. -/
inductive ApiError where
  | rulesetNotFound
  | notModified
  | validation
  | internal (s : String)
deriving DecidableEq, Repr

/-- `api.IsValidationError`. -/
def isValidationError : ApiError → Bool
  | .validation => true
  | _ => false

/-- Modelled from the spec: the service `Put` (its store implementation
is absent from src/).  §3 lifecycle and §4.E write path: compare the
proposed rule list with the current latest version (structural
equality, realised in the store as checksum equality); if equal,
report `NotModified` and leave the state unchanged; otherwise append a
new version under a fresh monotonically assigned version id. -/
def servicePut (st : RulesetState) (rules : List Rule) :
    RulesetState × Except ApiError String :=
  let newId := formatInt (st.versions.length + 1)
  match st.versions.getLast? with
  | some (_, last) =>
    if rulesBeq last rules then (st, .error .notModified)
    else (⟨st.versions ++ [(newId, rules)]⟩, .ok newId)
  | none => (⟨st.versions ++ [(newId, rules)]⟩, .ok newId)

/-- The response status and body computed by `rulesetAPI.put`
(src/unnamed/part_001:250): decode, call `Put`, then — unless the
error is a validation error (400) or some error other than
`ErrRulesetNotModified` (500) — fall through to `Get` and encode the
current ruleset with status 200.  The body on 200 is the latest
version's rules. -/
def rulesetAPIPut (st : RulesetState) (rules : List Rule) :
    RulesetState × Nat × Option (List Rule) :=
  let res := servicePut st rules
  let st2 := res.1
  let latestRules := (st2.versions.getLast?).map (fun p => p.2)
  match res.2 with
  | .error e =>
    if isValidationError e then (st2, 400, none)
    else if e ≠ .notModified then (st2, 500, none)
    else (st2, 200, latestRules)
  | .ok _ => (st2, 200, latestRules)

/-- Modelled from the spec: the UI backend's edit-ruleset handler
(absent from src/; pinned by `TestEditRulesetHandler` and
`TestEditRulesetHandlerWithNoChange` in src/unnamed/part_000 and by
scenario S3): a successful put and a `NotModified` put both answer
`204 No Content`; validation failures answer 400; other errors 500. -/
def uiEditRulesetStatus : Except ApiError String → Nat
  | .ok _ => 204
  | .error .notModified => 204
  | .error .validation => 400
  | .error _ => 500

/-- `api.RulesetEvent` (`api/service.go`). -/
structure RulesetEvent where
  type : String
  path : String
  version : String
  rules : List Rule

/-- `api.RulesetEvents` (`api/service.go`). -/
structure RulesetEvents where
  events : List RulesetEvent
  revision : String
  timeout : Bool

/-- The `context` errors distinguished by `rulesetAPI.watch`. -/
inductive GoCtxErr where
  | canceled
  | deadlineExceeded
  | other (s : String)
deriving DecidableEq

/-- The tail of `rulesetAPI.watch` (src/unnamed/part_001:208): given
what `s.rulesets.Watch` returned, `context.Canceled` and
`context.DeadlineExceeded` deliberately fall through — "we do nothing
and return a 200 to the client" — so the buffered events are encoded
with status 200; any other error is a 500; no error is a 200. -/
def watchRespond (events : Option RulesetEvents) (err : Option GoCtxErr) :
    Nat × Option RulesetEvents :=
  match err with
  | some (.other _) => (500, none)
  | _ => (200, events)

/-- The Go type tag of a dynamically-typed parameter value. -/
def PValue.goType : PValue → String
  | .s _ => "string"
  | .b _ => "bool"
  | .i _ => "int64"
  | .f _ => "float64"

/-- Re-encoding of a parameter value as the `*Value` a `Param` lookup
returns (`StringValue`/`BoolValue`/`Int64Value`/`Float64Value`). -/
def PValue.encode : PValue → Value
  | .s v => StringValue v
  | .b v => BoolValue v
  | .i v => Int64Value v
  | .f v => Float64Value v

/-- The parameter value a `let` binds for a declared type, when the
evaluated value's data admits it (`exprLet.Eval`'s switch: strings are
bound verbatim, the other three concrete types parse the data; any
other declared type binds nothing). -/
def letBind (typ data : String) : Option PValue :=
  match typ with
  | "string" => some (.s data)
  | "int64" => (go_parseInt data).map PValue.i
  | "float64" => (go_parseFloat data).map PValue.f
  | "bool" => (go_parseBool data).map PValue.b
  | _ => none

/-- The rule of scenario S3 / `TestEditRulesetHandlerWithNoChange`:
`(or #true #false) → "Easy tiger"`. -/
def easyTigerRule : Rule :=
  Rule.New (Rule.Or (.valueE (BoolValue true)) (.valueE (BoolValue false)) .nil)
    (StringValue "Easy tiger")

/-! ## Helper lemmas -/

theorem digitsVal_foldl (l : List Char) (a : Nat) :
    List.foldl (fun a c => a * 10 + (c.toNat - 48)) a l = a * 10 ^ l.length + digitsVal l := by
  induction l generalizing a with
  | nil => simp [digitsVal]
  | cons c cs ih =>
    simp only [List.foldl_cons, ih, digitsVal, List.length_cons]
    ring

theorem revDigitsAux_lt_ten (fuel n d : Nat) (h : d ∈ revDigitsAux fuel n) : d < 10 := by
  induction fuel generalizing n with
  | zero => simp [revDigitsAux] at h
  | succ fuel ih =>
    simp only [revDigitsAux] at h
    by_cases hn : n = 0
    · simp [hn] at h
    · simp [hn] at h
      rcases h with h | h
      · omega
      · exact ih _ h

theorem revDigitsAux_foldl (fuel : Nat) : ∀ n a, n ≤ fuel →
    List.foldl (fun a d => a * 10 + d) a (revDigitsAux fuel n).reverse =
      a * 10 ^ (revDigitsAux fuel n).length + n := by
  induction fuel with
  | zero => intro n a h; interval_cases n; simp [revDigitsAux]
  | succ fuel ih =>
    intro n a h
    by_cases hn : n = 0
    · simp [hn, revDigitsAux]
    · have hdiv : n / 10 ≤ fuel := by omega
      simp only [revDigitsAux, hn, if_false, List.reverse_cons, List.foldl_append,
        List.foldl_cons, List.foldl_nil, List.length_cons]
      rw [ih (n / 10) a hdiv]
      have : n % 10 + 10 * (n / 10) = n := Nat.mod_add_div n 10
      ring_nf
      omega

theorem revDigits_foldl (n : Nat) :
    List.foldl (fun a d => a * 10 + d) 0 (revDigits n).reverse = n := by
  have := revDigitsAux_foldl n n 0 (le_refl n)
  simpa [revDigits] using this

theorem char_digit_toNat (d : Nat) (h : d < 10) : (Char.ofNat (48 + d)).toNat = 48 + d := by
  interval_cases d <;> decide

theorem digitsVal_map_revDigits (n : Nat) :
    digitsVal ((revDigits n).reverse.map (fun d => Char.ofNat (48 + d))) = n := by
  have h0 := digitsVal_foldl ((revDigits n).reverse.map (fun d => Char.ofNat (48 + d))) 0
  rw [List.foldl_map] at h0
  have hcong : List.foldl (fun a d => a * 10 + ((Char.ofNat (48 + d)).toNat - 48)) 0
      (revDigits n).reverse = List.foldl (fun a d => a * 10 + d) 0 (revDigits n).reverse := by
    apply List.foldl_ext
    intro a d hd
    have hd10 : d < 10 := revDigitsAux_lt_ten n n d (by simpa [revDigits] using List.mem_reverse.mp hd)
    rw [char_digit_toNat d hd10]
    omega
  rw [hcong, revDigits_foldl] at h0
  omega

theorem go_parseInt_of_digits (s : String) (h1 : s.data ≠ [])
    (h2 : allDigits s.data = true)
    (h3 : (digitsVal s.data : Int) ≤ 2 ^ 63 - 1) :
    go_parseInt s = some ((digitsVal s.data : Int)) := by
  obtain ⟨c, cs, hcs⟩ : ∃ c cs, s.data = c :: cs := by
    cases hd : s.data with
    | nil => exact absurd hd h1
    | cons c cs => exact ⟨c, cs, rfl⟩
  have hdigit : 48 ≤ c.toNat ∧ c.toNat ≤ 57 := by
    have h2c := h2
    rw [hcs] at h2c
    simp [allDigits] at h2c
    exact h2c.1
  have hneg : ((c :: cs).head? == some '-') = false := by
    simp only [List.head?, beq_eq_false_iff_ne, ne_eq, Option.some.injEq]
    intro hc
    rw [hc] at hdigit
    simp at hdigit
  have hplus : ((c :: cs).head? == some '+') = false := by
    simp only [List.head?, beq_eq_false_iff_ne, ne_eq, Option.some.injEq]
    intro hc
    rw [hc] at hdigit
    simp at hdigit
  unfold go_parseInt
  rw [hcs]
  simp only [hneg, hplus, Bool.or_self, Bool.false_eq_true, if_false, ite_false]
  rw [← hcs]
  simp only [List.isEmpty_iff, h1, if_false, h2, Bool.not_true, Bool.false_eq_true, ite_false]
  have hno : ¬((digitsVal s.data : Int) < -(2 ^ 63) ∨ (2 : Int) ^ 63 - 1 < (digitsVal s.data : Int)) := by
    push_neg
    refine ⟨?_, h3⟩
    have hnn : (0 : Int) ≤ (digitsVal s.data : Int) := Int.ofNat_nonneg _
    omega
  simp [hno]
  norm_num at h3
  exact ⟨by omega, by omega⟩

theorem revDigits_ne_nil (n : Nat) (hn : n ≠ 0) : revDigits n ≠ [] := by
  obtain ⟨m, rfl⟩ : ∃ m, n = m + 1 := ⟨n - 1, by omega⟩
  simp [revDigits, revDigitsAux, hn]

theorem formatNat_data (n : Nat) (hn : n ≠ 0) :
    (formatNat n).data = (revDigits n).reverse.map (fun d => Char.ofNat (48 + d)) := by
  simp [formatNat, hn]

theorem allDigits_formatNat (n : Nat) (hn : n ≠ 0) : allDigits (formatNat n).data = true := by
  rw [formatNat_data n hn]
  simp only [allDigits, List.all_eq_true]
  intro c hc
  obtain ⟨d, hd, rfl⟩ := List.mem_map.mp hc
  have hd10 : d < 10 :=
    revDigitsAux_lt_ten n n d (by simpa [revDigits] using List.mem_reverse.mp hd)
  simp only [char_digit_toNat d hd10, Bool.and_eq_true, decide_eq_true_eq]
  omega

theorem go_parseInt_formatNat (n : Nat) (h : (n : Int) ≤ 2 ^ 63 - 1) :
    go_parseInt (formatNat n) = some ((n : Int)) := by
  by_cases hn : n = 0
  · subst hn
    decide
  · have hval : digitsVal (formatNat n).data = n := by
      rw [formatNat_data n hn]
      exact digitsVal_map_revDigits n
    have hne : (formatNat n).data ≠ [] := by
      rw [formatNat_data n hn]
      simp only [ne_eq, List.map_eq_nil_iff, List.reverse_eq_nil_iff]
      exact revDigits_ne_nil n hn
    have := go_parseInt_of_digits (formatNat n) hne (allDigits_formatNat n hn) (by rw [hval]; exact h)
    rw [hval] at this
    exact this

theorem go_parseInt_formatInt_ofNat (n : Nat) (h : (n : Int) ≤ 2 ^ 63 - 1) :
    go_parseInt (formatInt (n : Int)) = some ((n : Int)) := by
  have hlt : ¬((n : Int) < 0) := by omega
  simp only [formatInt, hlt, if_false, ite_false, Int.natAbs_ofNat]
  exact go_parseInt_formatNat n h

theorem fnvStep_lt (h b : Nat) : (h * 16777619 % 4294967296) ^^^ b % 256 < 4294967296 := by
  have h1 : h * 16777619 % 4294967296 < 4294967296 := Nat.mod_lt _ (by norm_num)
  have h2 : b % 256 < 4294967296 := lt_of_lt_of_le (Nat.mod_lt _ (by norm_num)) (by norm_num)
  have h1' : h * 16777619 % 4294967296 < 2 ^ 32 := by norm_num at h1 ⊢; exact h1
  have h2' : b % 256 < 2 ^ 32 := by norm_num at h2 ⊢; exact h2
  have : (h * 16777619 % 4294967296) ^^^ b % 256 < 2 ^ 32 := Nat.bitwise_lt h1' h2'
  norm_num at this ⊢
  exact this

theorem fnvSum32_lt (bytes : List Nat) : fnvSum32 bytes < 4294967296 := by
  have haux : ∀ (l : List Nat) (h0 : Nat), h0 < 4294967296 →
      List.foldl (fun h b => (h * 16777619 % 4294967296) ^^^ b % 256) h0 l < 4294967296 := by
    intro l
    induction l with
    | nil => intro h0 hh; simpa using hh
    | cons b bs ih =>
      intro h0 hh
      simp only [List.foldl_cons]
      exact ih _ (fnvStep_lt h0 b)
  exact haux bytes 2166136261 (by norm_num)

theorem value_equal_iff (v w : Value) : Value.Equal v w = true ↔ v = w := by
  simp [Value.Equal, Value.compare]

/-- C3 (amended): `Value.Equal` is componentwise equality of *all
three* exported fields — `Kind` included — not of `Type` and `Data`
alone; `*v == *other` in `Value.compare` compares the full structs. -/
theorem C3_equal_iff_all_fields (v w : Value) :
    Value.Equal v w = true ↔ v.kind = w.kind ∧ v.type = w.type ∧ v.data = w.data := by
  rw [value_equal_iff]
  cases v
  cases w
  simp [Value.mk.injEq]

/-- C3 (counterexample): two `Value`s agreeing on `Type` and `Data`
byte-for-byte (but differing in `Kind`, as in the zero-Kind literal
`&rule.Value{Type: "bool", Data: "true"}` used by `engine_test.go`) are
not `Equal`, refuting "no other field of the Values affects
equality". -/
theorem C3_counterexample :
    Value.type ⟨"", "bool", "true"⟩ = Value.type ⟨"value", "bool", "true"⟩ ∧
    Value.data ⟨"", "bool", "true"⟩ = Value.data ⟨"value", "bool", "true"⟩ ∧
    Value.Equal ⟨"", "bool", "true"⟩ ⟨"value", "bool", "true"⟩ = false := by
  decide

/-- C9: for int64-typed `Value`s whose data fails to parse as a
signed 64-bit decimal, `Value.LTE` swallows the parse failure and
answers `(false, nil)`, while `Value.GT`, `Value.GTE` and `Value.LT`
all surface the same `strconv` parse error. -/
theorem C9_lte_swallows_parse_error (v w : Value)
    (hv : v.type = "int64") (hw : w.type = "int64")
    (hp : go_parseInt v.data = none ∨ go_parseInt w.data = none) :
    Value.LTE v w = .ok false ∧
    ∃ num, Value.GT v w = .error (.parseError "ParseInt" num) ∧
      Value.GTE v w = .error (.parseError "ParseInt" num) ∧
      Value.LT v w = .error (.parseError "ParseInt" num) := by
  unfold Value.LTE Value.GT Value.GTE Value.LT
  rw [hv]
  unfold parseInt64Values
  rcases h1 : go_parseInt v.data with _ | i1
  · exact ⟨rfl, v.data, rfl, rfl, rfl⟩
  · rcases hp with hp | hp
    · rw [h1] at hp; cases hp
    · rw [hp]
      exact ⟨rfl, w.data, rfl, rfl, rfl⟩

/-- C9 (witness): concrete inputs — `⟨value,int64,abc⟩` against
`Int64Value 5`. -/
theorem C9_witness :
    (Value.type ⟨"value", "int64", "abc"⟩ = "int64" ∧
      go_parseInt (Value.data ⟨"value", "int64", "abc"⟩) = none) ∧
    Value.LTE ⟨"value", "int64", "abc"⟩ (Int64Value 5) = .ok false ∧
    ∃ num, Value.GT ⟨"value", "int64", "abc"⟩ (Int64Value 5) = .error (.parseError "ParseInt" num) ∧
      Value.GTE ⟨"value", "int64", "abc"⟩ (Int64Value 5) = .error (.parseError "ParseInt" num) ∧
      Value.LT ⟨"value", "int64", "abc"⟩ (Int64Value 5) = .error (.parseError "ParseInt" num) :=
  ⟨⟨rfl, by decide⟩,
    C9_lte_swallows_parse_error ⟨"value", "int64", "abc"⟩ (Int64Value 5) rfl rfl (Or.inl (by decide))⟩

/-- C1 (counterexample): `gt` over operands of two different
concrete types (`int64` and `string`) evaluates to an ordinary boolean
result, not a `TypeMismatch` error: the spec's own S4 example
`(gt age "10")` with `age = 5` yields `false`, because the `int64`
branch parses the string operand's data `"10"` as an integer. -/
theorem C1_counterexample :
    Value.type (Int64Value 5) ≠ Value.type (StringValue "10") ∧
    eval (Rule.GT (.valueE (Int64Value 5)) (.valueE (StringValue "10")) .nil) (.bag [])
      = .ok (BoolValue false) := by
  exact ⟨by decide, rfl⟩

/-- C1 (amended): the comparison methods dispatch on the *first*
operand's `Type` only and never produce a `TypeMismatch` error for
operands of different concrete types: a string-typed left operand
compares `Data` bytewise against any right operand; an int64-typed
left operand parses the right operand's `Data` as an integer, yielding
a boolean when it parses and the `strconv` parse error when it does
not; and `gt` evaluation of such a pair returns that boolean. -/
theorem C1_no_type_mismatch_on_mixed_types :
    (∀ v w : Value, v.type = "string" →
      Value.GT v w = .ok (!goStrLE v.data w.data) ∧
      Value.GTE v w = .ok (!goStrLT v.data w.data) ∧
      Value.LT v w = .ok (!goStrLE w.data v.data) ∧
      Value.LTE v w = .ok (!goStrLT w.data v.data)) ∧
    (∀ (v w : Value) (a b : Int), v.type = "int64" →
      go_parseInt v.data = some a → go_parseInt w.data = some b →
      Value.GT v w = .ok (decide (b < a)) ∧
      Value.GTE v w = .ok (decide (b ≤ a)) ∧
      Value.LT v w = .ok (decide (a < b)) ∧
      Value.LTE v w = .ok (decide (a ≤ b))) ∧
    (∀ (v w : Value) (a : Int), v.type = "int64" →
      go_parseInt v.data = some a → go_parseInt w.data = none →
      Value.GT v w = .error (.parseError "ParseInt" w.data) ∧
      Value.GTE v w = .error (.parseError "ParseInt" w.data) ∧
      Value.LT v w = .error (.parseError "ParseInt" w.data)) ∧
    (∀ (v w : Value) (params : Params), v.type = "string" →
      eval (.gtE (.cons (.valueE v) (.cons (.valueE w) .nil))) params
        = .ok (BoolValue (!goStrLE v.data w.data))) := by
  refine ⟨?_, ?_, ?_, ?_⟩
  · intro v w hv
    unfold Value.GT Value.GTE Value.LT Value.LTE
    rw [hv]
    refine ⟨?_, ?_, ?_, ?_⟩ <;>
      · rcases hle : goStrLE v.data w.data with _ | _ <;>
          rcases hlt : goStrLT v.data w.data with _ | _ <;>
          rcases hle2 : goStrLE w.data v.data with _ | _ <;>
          rcases hlt2 : goStrLT w.data v.data with _ | _ <;>
          simp_all
  · intro v w a b hv ha hb
    unfold Value.GT Value.GTE Value.LT Value.LTE
    rw [hv]
    unfold parseInt64Values
    rw [ha, hb]
    refine ⟨?_, ?_, ?_, ?_⟩
    · by_cases h : a ≤ b
      · simp [h, show ¬b < a by omega]
      · simp [h, show b < a by omega]
    · by_cases h : a < b
      · simp [h, show ¬b ≤ a by omega]
      · simp [h, show b ≤ a by omega]
    · by_cases h : b ≤ a
      · simp [h, show ¬a < b by omega]
      · simp [h, show a < b by omega]
    · by_cases h : b < a
      · simp [h, show ¬a ≤ b by omega]
      · simp [h, show a ≤ b by omega]
  · intro v w a hv ha hb
    unfold Value.GT Value.GTE Value.LT
    rw [hv]
    unfold parseInt64Values
    rw [ha, hb]
    exact ⟨rfl, rfl, rfl⟩
  · intro v w params hv
    have hgt : Value.GT v w = .ok (!goStrLE v.data w.data) := by
      unfold Value.GT
      rw [hv]
      rcases hle : goStrLE v.data w.data with _ | _ <;> simp
    simp only [eval, gtRest, ExprList.length]
    norm_num
    rw [hgt]
    rcases hle : goStrLE v.data w.data with _ | _ <;> simp [hle, gtRest]

/-- C1 (witness): the amended statement at concrete inputs. -/
theorem C1_no_type_mismatch_witness :
    Value.GT (StringValue "b") (Int64Value 5) = .ok true ∧
    Value.GT (Int64Value 5) (StringValue "10") = .ok false ∧
    Value.GT (Int64Value 5) (StringValue "abc") = .error (.parseError "ParseInt" "abc") ∧
    eval (.gtE (.cons (.valueE (StringValue "b")) (.cons (.valueE (Int64Value 5)) .nil)))
      (.bag []) = .ok (BoolValue true) := by
  obtain ⟨h1, h2, h3, h4⟩ := C1_no_type_mismatch_on_mixed_types
  refine ⟨?_, ?_, ?_, ?_⟩
  · exact ((h1 (StringValue "b") (Int64Value 5) rfl).1).trans (by decide)
  · exact ((h2 (Int64Value 5) (StringValue "10") 5 10 rfl (by decide) (by decide)).1).trans
      (by decide)
  · exact (h3 (Int64Value 5) (StringValue "abc") 5 rfl (by decide) (by decide)).1
  · exact (h4 (StringValue "b") (Int64Value 5) (.bag []) rfl).trans (by decide)

/-- C8: when the service's `Watch` call ends with the caller's
context cancelled or its deadline exceeded, `rulesetAPI.watch`
deliberately falls through and encodes whatever events were returned
with HTTP 200 — never an error response. -/
theorem C8_watch_cancellation_is_success (events : Option RulesetEvents)
    (err : Option GoCtxErr)
    (h : err = some .canceled ∨ err = some .deadlineExceeded) :
    watchRespond events err = (200, events) := by
  rcases h with h | h <;> subst h <;> rfl

/-- C8 (witness): a cancelled watch with one buffered event is a
200 carrying that event. -/
theorem C8_watch_cancellation_witness :
    watchRespond (some ⟨[⟨"PUT", "a", "1", []⟩], "1", false⟩) (some .canceled)
      = (200, some ⟨[⟨"PUT", "a", "1", []⟩], "1", false⟩) :=
  C8_watch_cancellation_is_success (some ⟨[⟨"PUT", "a", "1", []⟩], "1", false⟩)
    (some .canceled) (Or.inl rfl)

/-- C7 (counterexample): a no-op put through the API server's
`rulesetAPI.put` handler answers **200** with the current ruleset, not
204: the `ErrRulesetNotModified` branch falls through to `Get` and
`EncodeJSON(..., http.StatusOK)`. -/
theorem C7_counterexample :
    rulesetAPIPut ⟨[("1", [easyTigerRule])]⟩ [easyTigerRule]
      = (⟨[("1", [easyTigerRule])]⟩, 200, some [easyTigerRule]) ∧ (200 : Nat) ≠ 204 := by
  exact ⟨rfl, by decide⟩

/-- C7 (amended): a put whose proposed rules are structurally equal
to the current latest version reports `NotModified` and leaves the
state unchanged (no new version), and both HTTP layers surface this as
success, not as an error: the API server's put responds 200 with the
current ruleset, and the UI backend's edit handler responds 204. -/
theorem C7_noop_put_success (st : RulesetState) (rules last : List Rule) (vid : String)
    (hlast : st.versions.getLast? = some (vid, last))
    (hbeq : rulesBeq last rules = true) :
    servicePut st rules = (st, .error .notModified) ∧
    rulesetAPIPut st rules = (st, 200, (st.versions.getLast?).map (fun p => p.2)) ∧
    uiEditRulesetStatus (servicePut st rules).2 = 204 ∧
    (rulesetAPIPut st rules).2.1 ≠ 400 ∧ (rulesetAPIPut st rules).2.1 ≠ 500 := by
  have hput : servicePut st rules = (st, .error .notModified) := by
    unfold servicePut
    rw [hlast]
    simp [hbeq]
  have hapi : rulesetAPIPut st rules = (st, 200, (st.versions.getLast?).map (fun p => p.2)) := by
    unfold rulesetAPIPut
    rw [hput]
    simp [isValidationError]
  refine ⟨hput, hapi, ?_, ?_, ?_⟩
  · rw [hput]
    rfl
  · rw [hapi]
    simp
  · rw [hapi]
    simp

/-- C7 (witness): the S3 scenario — the "Easy tiger" ruleset put
again unchanged. -/
theorem C7_noop_put_witness :
    servicePut ⟨[("1", [easyTigerRule])]⟩ [easyTigerRule]
      = (⟨[("1", [easyTigerRule])]⟩, .error .notModified) ∧
    uiEditRulesetStatus (servicePut ⟨[("1", [easyTigerRule])]⟩ [easyTigerRule]).2 = 204 := by
  obtain ⟨h1, _, h3, _, _⟩ :=
    C7_noop_put_success ⟨[("1", [easyTigerRule])]⟩ [easyTigerRule] [easyTigerRule] "1" rfl
      (by rfl)
  exact ⟨h1, h3⟩

/-- C6: `fnv` of a successfully evaluated operand is the FNV-1
32-bit hash of the operand's data bytes wrapped as an int64 `INTEGER`
value, hence in `[0, 2³²)`; and `percentile(op1, op2)` is `true`
exactly when `(fnv(op1) mod 100) ≤ op2`, `op2` evaluating to an
int64. -/
theorem C6_fnv_percentile :
    (∀ (op : Expr) (params : Params) (v : Value), eval op params = .ok v →
      eval (.fnvE (.cons op .nil)) params
        = .ok (Int64Value ((fnvSum32 (stringBytes v.data) : Int))) ∧
      (0 : Int) ≤ ((fnvSum32 (stringBytes v.data) : Int)) ∧
      fnvSum32 (stringBytes v.data) < 2 ^ 32) ∧
    (∀ (a b : Expr) (params : Params) (va vb : Value) (p : Int),
      eval a params = .ok va → eval b params = .ok vb → go_parseInt vb.data = some p →
      eval (.percentileE (.cons a (.cons b .nil))) params
        = .ok (BoolValue (decide (Int.tmod ((fnvSum32 (stringBytes va.data) : Int)) 100 ≤ p)))) := by
  constructor
  · intro op params v hv
    refine ⟨?_, Int.ofNat_nonneg _, by norm_num [fnvSum32_lt (stringBytes v.data)]⟩
    simp only [eval, ExprList.length]
    norm_num
    rw [hv]
  · intro a b params va vb p ha hb hp
    have hhash : go_parseInt (Int64Value ((fnvSum32 (stringBytes va.data) : Int))).data
        = some ((fnvSum32 (stringBytes va.data) : Int)) := by
      have hlt : ((fnvSum32 (stringBytes va.data) : Int)) ≤ 2 ^ 63 - 1 := by
        have h32 := fnvSum32_lt (stringBytes va.data)
        norm_num
        omega
      exact go_parseInt_formatInt_ofNat _ hlt
    simp only [eval, ExprList.length]
    norm_num
    rw [ha]
    dsimp only
    rw [hhash]
    dsimp only
    rw [hb]
    dsimp only
    rw [hp]
    by_cases hle : Int.tmod ((fnvSum32 (stringBytes va.data) : Int)) 100 ≤ p <;> simp [hle]

/-- C6 (witness): `fnv("foo")` and `percentile("foo", 25)` at
concrete inputs. -/
theorem C6_fnv_percentile_witness :
    eval (.fnvE (.cons (.valueE (StringValue "foo")) .nil)) (.bag [])
      = .ok (Int64Value ((fnvSum32 (stringBytes "foo") : Int))) ∧
    fnvSum32 (stringBytes "foo") < 2 ^ 32 ∧
    eval (.percentileE (.cons (.valueE (StringValue "foo")) (.cons (.valueE (Int64Value 25)) .nil)))
      (.bag [])
      = .ok (BoolValue (decide (Int.tmod ((fnvSum32 (stringBytes "foo") : Int)) 100 ≤ 25))) := by
  obtain ⟨h1, h2⟩ := C6_fnv_percentile
  refine ⟨(h1 (.valueE (StringValue "foo")) (.bag []) (StringValue "foo") rfl).1,
    (h1 (.valueE (StringValue "foo")) (.bag []) (StringValue "foo") rfl).2.2, ?_⟩
  exact h2 (.valueE (StringValue "foo")) (.valueE (Int64Value 25)) (.bag [])
    (StringValue "foo") (Int64Value 25) 25 rfl rfl (by decide)

/-- C10 (counterexample): a `let` whose `Param` declares the
unsupported type `int32` evaluates its body against the `Params`
interface wrapping a nil `*stack`.  That interface is not `== nil` in
Go, so `Param.Eval`'s `params is nil` check never fires: the lookup of
`y` in the body dereferences the nil `*stack` receiver and panics with
the runtime nil-pointer error — it does not fail with the
`params is nil` error the claim asserts. -/
theorem C10_counterexample :
    eval (.letE (.cons (.paramE ⟨"param", "int32", "x"⟩)
        (.cons (.valueE (Int64Value 3)) (.cons (.paramE (StringParam "y")) .nil)))) (.bag [])
      = .panics "runtime error: invalid memory address or nil pointer dereference" ∧
    eval (.letE (.cons (.paramE ⟨"param", "int32", "x"⟩)
        (.cons (.valueE (Int64Value 3)) (.cons (.paramE (StringParam "y")) .nil)))) (.bag [])
      ≠ .err (.msg "params is nil") := by
  exact ⟨rfl, by decide⟩

/-- C10 (amended): `exprLet.Eval` type-asserts operand 0 to `*Param`
and panics — it does not return an error — when operand 0 is any other
expression; when the `Param`'s declared type is not one of the four
concrete types, the body is evaluated against a `Params` interface
holding a nil `*stack`.  That interface is non-nil, so `Param.Eval`'s
`params == nil` check never fires and no lookup in the body can fail
with the `params is nil` error; lookups of the four concrete types
instead call the nil `*stack`'s getters, which dereference the nil
receiver and panic with the Go runtime nil-pointer error. -/
theorem C10_let_asserts_param_typed_nil_scope :
    (∀ (e0 e1 e2 : Expr) (rest : ExprList) (params : Params),
      (∀ p : Param, e0 ≠ .paramE p) →
      eval (.letE (.cons e0 (.cons e1 (.cons e2 rest)))) params
        = .panics "interface conversion: rule.Expr is not *rule.Param") ∧
    (∀ (symb : Param) (e1 body : Expr) (rest : ExprList) (params : Params) (val : Value),
      eval e1 params = .ok val →
      ¬(symb.type = "string" ∨ symb.type = "int64" ∨ symb.type = "float64" ∨
          symb.type = "bool") →
      eval (.letE (.cons (.paramE symb) (.cons e1 (.cons body rest)))) params
        = eval body .nilStack) ∧
    (∀ q : Param,
      (q.type = "string" ∨ q.type = "int64" ∨ q.type = "float64" ∨ q.type = "bool") →
      Param.eval q .nilStack
        = .panics "runtime error: invalid memory address or nil pointer dereference") ∧
    (∀ q : Param, Param.eval q .nilStack ≠ .err (.msg "params is nil")) := by
  refine ⟨?_, ?_, ?_, ?_⟩
  · intro e0 e1 e2 rest params h
    cases e0 <;> first
      | rfl
      | (rename_i p; exact absurd rfl (h p))
  · intro symb e1 body rest params val he1 hne
    simp only [eval]
    rw [he1]
    dsimp only
    split
    next heq => exact absurd (Or.inl heq) hne
    next heq => exact absurd (Or.inr (Or.inl heq)) hne
    next heq => exact absurd (Or.inr (Or.inr (Or.inl heq))) hne
    next heq => exact absurd (Or.inr (Or.inr (Or.inr heq))) hne
    next => rfl
  · intro q htyp
    obtain ⟨qk, qt, qn⟩ := q
    simp only at htyp
    rcases htyp with h | h | h | h <;> subst h <;> rfl
  · intro q
    unfold Param.eval
    rw [if_neg (by simp)]
    split <;>
      simp [Params.GetString, Params.GetBool, Params.GetInt64, Params.GetFloat64]

/-- C10 (witness): the amended statement at concrete inputs — a `let`
with a literal in operand 0 panics; a `let` binding an `int32`-typed
param evaluates its body against the typed-nil stack scope, where a
string param lookup panics with the runtime nil-pointer error and
cannot yield the `params is nil` error. -/
theorem C10_typed_nil_witness :
    eval (.letE (.cons (.valueE (BoolValue true))
        (.cons (.valueE (Int64Value 3)) (.cons (.valueE (BoolValue true)) .nil)))) (.bag [])
      = .panics "interface conversion: rule.Expr is not *rule.Param" ∧
    eval (.letE (.cons (.paramE ⟨"param", "int32", "x"⟩)
        (.cons (.valueE (Int64Value 3)) (.cons (.paramE (StringParam "y")) .nil)))) (.bag [])
      = eval (.paramE (StringParam "y")) .nilStack ∧
    Param.eval (StringParam "y") .nilStack
      = .panics "runtime error: invalid memory address or nil pointer dereference" ∧
    Param.eval (StringParam "y") .nilStack ≠ .err (.msg "params is nil") := by
  obtain ⟨h1, h2, h3, h4⟩ := C10_let_asserts_param_typed_nil_scope
  refine ⟨?_, ?_, h3 (StringParam "y") (Or.inl rfl), h4 (StringParam "y")⟩
  · exact h1 (.valueE (BoolValue true)) (.valueE (Int64Value 3)) (.valueE (BoolValue true))
      .nil (.bag []) (fun p h => Expr.noConfusion h)
  · exact h2 ⟨"param", "int32", "x"⟩ (.valueE (Int64Value 3)) (.paramE (StringParam "y"))
      .nil (.bag []) (Int64Value 3) rfl (by decide)

theorem getString_stack_delegate (key nm : String) (pv : PValue) (parent : Params)
    (h : key ≠ nm) : Params.GetString (.stack nm pv parent) key = Params.GetString parent key := by
  simp [Params.GetString, h]

theorem getBool_stack_delegate (key nm : String) (pv : PValue) (parent : Params)
    (h : key ≠ nm) : Params.GetBool (.stack nm pv parent) key = Params.GetBool parent key := by
  simp [Params.GetBool, h]

theorem getInt64_stack_delegate (key nm : String) (pv : PValue) (parent : Params)
    (h : key ≠ nm) : Params.GetInt64 (.stack nm pv parent) key = Params.GetInt64 parent key := by
  simp [Params.GetInt64, h]

theorem getFloat64_stack_delegate (key nm : String) (pv : PValue) (parent : Params)
    (h : key ≠ nm) : Params.GetFloat64 (.stack nm pv parent) key = Params.GetFloat64 parent key := by
  simp [Params.GetFloat64, h]

/-- C5: a `let` whose operand 0 is a `Param` of one of the four
concrete types and whose value operand evaluates successfully (with
data admitting the declared type) evaluates its body in a scope frame
stacked on the outer bag; in that scope a lookup of the bound name
returns the evaluated value (shadowing any outer binding, since the
frame is consulted first), a lookup of any other name delegates to the
outer bag, and outside the `let` the bound name resolves against the
outer bag alone, yielding `ParamNotFound` when absent. -/
theorem C5_let_scoping :
    (∀ (nm typ : String) (e1 body : Expr) (outer : Params) (val : Value) (pv : PValue),
      eval e1 outer = .ok val → letBind typ val.data = some pv →
      eval (.letE (.cons (.paramE ⟨"param", typ, nm⟩) (.cons e1 (.cons body .nil)))) outer
        = eval body (.stack nm pv outer)) ∧
    (∀ (nm typ : String) (outer : Params) (val : Value) (pv : PValue),
      letBind typ val.data = some pv → val.kind = "value" → val.type = typ →
      pv.encode.data = val.data →
      Param.eval ⟨"param", typ, nm⟩ (.stack nm pv outer) = .ok val) ∧
    (∀ (q : Param) (nm : String) (pv : PValue) (entries : List (String × PValue)),
      q.name ≠ nm →
      Param.eval q (.stack nm pv (.bag entries)) = Param.eval q (.bag entries)) ∧
    (∀ (typ nm : String) (entries : List (String × PValue)),
      (typ = "string" ∨ typ = "int64" ∨ typ = "float64" ∨ typ = "bool") →
      lookupEntry entries nm = none →
      Param.eval ⟨"param", typ, nm⟩ (.bag entries) = .err .paramNotFound) := by
  refine ⟨?_, ?_, ?_, ?_⟩
  · intro nm typ e1 body outer val pv he1 hb
    unfold letBind at hb
    split at hb
    · simp only [Option.some.injEq] at hb
      subst hb
      simp only [eval]
      rw [he1]
    · rcases hpi : go_parseInt val.data with _ | i <;> rw [hpi] at hb
      · cases hb
      · simp only [Option.map_some', Option.some.injEq] at hb
        subst hb
        simp only [eval]
        rw [he1]
        dsimp only
        rw [hpi]
    · rcases hpf : go_parseFloat val.data with _ | f <;> rw [hpf] at hb
      · cases hb
      · simp only [Option.map_some', Option.some.injEq] at hb
        subst hb
        simp only [eval]
        rw [he1]
        dsimp only
        rw [hpf]
    · rcases hpb : go_parseBool val.data with _ | b <;> rw [hpb] at hb
      · cases hb
      · simp only [Option.map_some', Option.some.injEq] at hb
        subst hb
        simp only [eval]
        rw [he1]
        dsimp only
        rw [hpb]
    · cases hb
  · intro nm typ outer val pv hb hk ht hd
    obtain ⟨vk, vt, vd⟩ := val
    simp only at hk ht hd
    subst hk
    subst ht
    unfold letBind at hb
    split at hb
    · simp only [Option.some.injEq] at hb
      subst hb
      simp only [PValue.encode, StringValue, newValue] at hd ⊢
      simp [Param.eval, Params.GetString, StringValue, newValue, hd]
    · rcases hpi : go_parseInt vd with _ | i <;> rw [hpi] at hb
      · cases hb
      · simp only [Option.map_some', Option.some.injEq] at hb
        subst hb
        simp only [PValue.encode, Int64Value, newValue] at hd
        simp [Param.eval, Params.GetInt64, Int64Value, newValue, hd]
    · rcases hpf : go_parseFloat vd with _ | f <;> rw [hpf] at hb
      · cases hb
      · simp only [Option.map_some', Option.some.injEq] at hb
        subst hb
        simp only [PValue.encode, Float64Value, newValue] at hd
        simp [Param.eval, Params.GetFloat64, Float64Value, newValue, hd]
    · rcases hpb : go_parseBool vd with _ | b <;> rw [hpb] at hb
      · cases hb
      · simp only [Option.map_some', Option.some.injEq] at hb
        subst hb
        simp only [PValue.encode, BoolValue, newValue] at hd
        simp [Param.eval, Params.GetBool, BoolValue, newValue, hd]
    · cases hb
  · intro q nm pv entries hq
    unfold Param.eval
    rw [if_neg (by simp), if_neg (by simp)]
    split
    · rw [getString_stack_delegate q.name nm pv (.bag entries) hq]
    · rw [getBool_stack_delegate q.name nm pv (.bag entries) hq]
    · rw [getInt64_stack_delegate q.name nm pv (.bag entries) hq]
    · rw [getFloat64_stack_delegate q.name nm pv (.bag entries) hq]
    · rfl
  · intro typ nm entries htyp hlk
    rcases htyp with h | h | h | h <;> subst h <;>
      simp [Param.eval, Params.GetString, Params.GetBool, Params.GetInt64, Params.GetFloat64, hlk]

/-- C5 (witness): `let(x:int64, 3, eq(x, 3))` evaluates its body in
the stacked scope where `x` resolves to `Int64Value 3`; lookups of
another name delegate to the outer bag; `x` is `ParamNotFound` outside
the body. -/
theorem C5_let_scoping_witness :
    eval (.letE (.cons (.paramE ⟨"param", "int64", "x"⟩)
        (.cons (.valueE (Int64Value 3))
          (.cons (.eqE (.cons (.paramE (Int64Param "x")) (.cons (.valueE (Int64Value 3)) .nil)))
            .nil)))) (.bag [])
      = eval (.eqE (.cons (.paramE (Int64Param "x")) (.cons (.valueE (Int64Value 3)) .nil)))
          (.stack "x" (.i 3) (.bag [])) ∧
    Param.eval ⟨"param", "int64", "x"⟩ (.stack "x" (.i 3) (.bag [])) = .ok (Int64Value 3) ∧
    Param.eval (StringParam "y") (.stack "x" (.i 3) (.bag [])) = Param.eval (StringParam "y") (.bag []) ∧
    Param.eval ⟨"param", "int64", "x"⟩ (.bag []) = .err .paramNotFound ∧
    eval (.letE (.cons (.paramE ⟨"param", "int64", "x"⟩)
        (.cons (.valueE (Int64Value 3))
          (.cons (.eqE (.cons (.paramE (Int64Param "x")) (.cons (.valueE (Int64Value 3)) .nil)))
            .nil)))) (.bag [])
      = .ok (BoolValue true) := by
  obtain ⟨h1, h2, h3, h4⟩ := C5_let_scoping
  refine ⟨?_, ?_, ?_, ?_, by rfl⟩
  · exact h1 "x" "int64"
      (.valueE (Int64Value 3))
      (.eqE (.cons (.paramE (Int64Param "x")) (.cons (.valueE (Int64Value 3)) .nil)))
      (.bag []) (Int64Value 3) (.i 3) rfl (by decide)
  · exact h2 "x" "int64" (.bag []) (Int64Value 3) (.i 3) (by decide) rfl rfl (by decide)
  · exact h3 (StringParam "y") "x" (.i 3) [] (by decide)
  · exact h4 "int64" "x" [] (Or.inr (Or.inl rfl)) rfl

theorem ExprList.indOn {motive : ExprList → Prop} (l : ExprList) (hnil : motive .nil)
    (hcons : ∀ x xs, motive xs → motive (.cons x xs)) : motive l :=
  match l with
  | .nil => hnil
  | .cons x xs => hcons x xs (ExprList.indOn xs hnil hcons)
termination_by structural l

theorem orRest_decided (l1 : ExprList) (d : Expr) (post : ExprList) (params : Params) (w : Value)
    (hall : l1.Forall (fun e => ∃ v, eval e params = .ok v ∧ v.type = "bool" ∧
      v.Equal (BoolValue true) = false))
    (hd : eval d params = .ok w) (hw : w.Equal (BoolValue true) = true) :
    orRest (l1.append (.cons d post)) params = .ok w := by
  induction l1 using ExprList.indOn with
  | hnil =>
    have hwe := (value_equal_iff w (BoolValue true)).mp hw
    subst hwe
    simp only [ExprList.append, orRest]
    rw [hd]
    rfl
  | hcons x xs ih =>
    obtain ⟨⟨v, hv, htype, hne⟩, hrest⟩ := hall
    simp only [ExprList.append, orRest]
    rw [hv]
    simp only [htype, hne, ne_eq, not_true_eq_false, Bool.false_eq_true, if_false, ite_false]
    exact ih hrest

theorem orRest_none (l : ExprList) (params : Params)
    (hall : l.Forall (fun e => ∃ v, eval e params = .ok v ∧ v.type = "bool" ∧
      v.Equal (BoolValue true) = false)) :
    orRest l params = .ok (BoolValue false) := by
  induction l using ExprList.indOn with
  | hnil => rfl
  | hcons x xs ih =>
    obtain ⟨⟨v, hv, htype, hne⟩, hrest⟩ := hall
    simp only [orRest]
    rw [hv]
    simp only [htype, hne, ne_eq, not_true_eq_false, Bool.false_eq_true, if_false, ite_false]
    exact ih hrest

theorem andRest_decided (l1 : ExprList) (d : Expr) (post : ExprList) (params : Params) (w : Value)
    (hall : l1.Forall (fun e => ∃ v, eval e params = .ok v ∧ v.type = "bool" ∧
      v.Equal (BoolValue false) = false))
    (hd : eval d params = .ok w) (hw : w.Equal (BoolValue false) = true) :
    andRest (l1.append (.cons d post)) params = .ok w := by
  induction l1 using ExprList.indOn with
  | hnil =>
    have hwe := (value_equal_iff w (BoolValue false)).mp hw
    subst hwe
    simp only [ExprList.append, andRest]
    rw [hd]
    rfl
  | hcons x xs ih =>
    obtain ⟨⟨v, hv, htype, hne⟩, hrest⟩ := hall
    simp only [ExprList.append, andRest]
    rw [hv]
    simp only [htype, hne, ne_eq, not_true_eq_false, Bool.false_eq_true, if_false, ite_false]
    exact ih hrest

theorem andRest_none (l : ExprList) (params : Params)
    (hall : l.Forall (fun e => ∃ v, eval e params = .ok v ∧ v.type = "bool" ∧
      v.Equal (BoolValue false) = false)) :
    andRest l params = .ok (BoolValue true) := by
  induction l using ExprList.indOn with
  | hnil => rfl
  | hcons x xs ih =>
    obtain ⟨⟨v, hv, htype, hne⟩, hrest⟩ := hall
    simp only [andRest]
    rw [hv]
    simp only [htype, hne, ne_eq, not_true_eq_false, Bool.false_eq_true, if_false, ite_false]
    exact ih hrest

/-- C4: `Or` and `And` evaluate left-to-right and short-circuit.
`Or` returns the first operand value equal to `BoolValue true` — all
earlier operands evaluating to non-true booleans — and the operands
after the deciding one never influence the result (they may error);
with no deciding operand it returns `BoolValue false`.  `And` is dual
with `BoolValue false` deciding and `BoolValue true` as default. -/
theorem C4_or_and_short_circuit :
    (∀ (pre post : ExprList) (d : Expr) (params : Params) (w : Value),
      2 ≤ (pre.append (.cons d post)).length →
      pre.Forall (fun e => ∃ v, eval e params = .ok v ∧ v.type = "bool" ∧
        v.Equal (BoolValue true) = false) →
      eval d params = .ok w → w.Equal (BoolValue true) = true →
      eval (.orE (pre.append (.cons d post))) params = .ok w) ∧
    (∀ (ops : ExprList) (params : Params),
      2 ≤ ops.length →
      ops.Forall (fun e => ∃ v, eval e params = .ok v ∧ v.type = "bool" ∧
        v.Equal (BoolValue true) = false) →
      eval (.orE ops) params = .ok (BoolValue false)) ∧
    (∀ (pre post : ExprList) (d : Expr) (params : Params) (w : Value),
      2 ≤ (pre.append (.cons d post)).length →
      pre.Forall (fun e => ∃ v, eval e params = .ok v ∧ v.type = "bool" ∧
        v.Equal (BoolValue false) = false) →
      eval d params = .ok w → w.Equal (BoolValue false) = true →
      eval (.andE (pre.append (.cons d post))) params = .ok w) ∧
    (∀ (ops : ExprList) (params : Params),
      2 ≤ ops.length →
      ops.Forall (fun e => ∃ v, eval e params = .ok v ∧ v.type = "bool" ∧
        v.Equal (BoolValue false) = false) →
      eval (.andE ops) params = .ok (BoolValue true)) := by
  refine ⟨?_, ?_, ?_, ?_⟩
  · intro pre post d params w hlen hall hd hw
    cases pre with
    | nil =>
      have hwe := (value_equal_iff w (BoolValue true)).mp hw
      subst hwe
      simp only [ExprList.append] at hlen ⊢
      simp only [eval]
      rw [if_neg (by omega)]
      rw [hd]
      rfl
    | cons p0 pre2 =>
      obtain ⟨⟨v0, hv0, ht0, hne0⟩, hrest⟩ := hall
      simp only [ExprList.append] at hlen ⊢
      simp only [eval]
      rw [if_neg (by omega)]
      rw [hv0]
      simp only [ht0, hne0, ne_eq, not_true_eq_false, Bool.false_eq_true, if_false, ite_false]
      exact orRest_decided pre2 d post params w hrest hd hw
  · intro ops params hlen hall
    cases ops with
    | nil => simp [ExprList.length] at hlen
    | cons a rest =>
      obtain ⟨⟨v0, hv0, ht0, hne0⟩, hrest⟩ := hall
      simp only [eval]
      rw [if_neg (by omega)]
      rw [hv0]
      simp only [ht0, hne0, ne_eq, not_true_eq_false, Bool.false_eq_true, if_false, ite_false]
      exact orRest_none rest params hrest
  · intro pre post d params w hlen hall hd hw
    cases pre with
    | nil =>
      have hwe := (value_equal_iff w (BoolValue false)).mp hw
      subst hwe
      simp only [ExprList.append] at hlen ⊢
      simp only [eval]
      rw [if_neg (by omega)]
      rw [hd]
      rfl
    | cons p0 pre2 =>
      obtain ⟨⟨v0, hv0, ht0, hne0⟩, hrest⟩ := hall
      simp only [ExprList.append] at hlen ⊢
      simp only [eval]
      rw [if_neg (by omega)]
      rw [hv0]
      simp only [ht0, hne0, ne_eq, not_true_eq_false, Bool.false_eq_true, if_false, ite_false]
      exact andRest_decided pre2 d post params w hrest hd hw
  · intro ops params hlen hall
    cases ops with
    | nil => simp [ExprList.length] at hlen
    | cons a rest =>
      obtain ⟨⟨v0, hv0, ht0, hne0⟩, hrest⟩ := hall
      simp only [eval]
      rw [if_neg (by omega)]
      rw [hv0]
      simp only [ht0, hne0, ne_eq, not_true_eq_false, Bool.false_eq_true, if_false, ite_false]
      exact andRest_none rest params hrest

/-- C4 (witness): `or(false, true, boom)` and `and(true, false,
boom)` decide at the second operand even though the third operand
(`boom`, an unbound param) errors when evaluated; with no deciding
operand, `or(false, false)` is `false` and `and(true, true)` is
`true`. -/
theorem C4_or_and_short_circuit_witness :
    eval (.paramE (StringParam "boom")) (.bag []) = .err .paramNotFound ∧
    eval (.orE (.cons (.valueE (BoolValue false)) (.cons (.valueE (BoolValue true))
      (.cons (.paramE (StringParam "boom")) .nil)))) (.bag []) = .ok (BoolValue true) ∧
    eval (.orE (.cons (.valueE (BoolValue false)) (.cons (.valueE (BoolValue false)) .nil)))
      (.bag []) = .ok (BoolValue false) ∧
    eval (.andE (.cons (.valueE (BoolValue true)) (.cons (.valueE (BoolValue false))
      (.cons (.paramE (StringParam "boom")) .nil)))) (.bag []) = .ok (BoolValue false) ∧
    eval (.andE (.cons (.valueE (BoolValue true)) (.cons (.valueE (BoolValue true)) .nil)))
      (.bag []) = .ok (BoolValue true) := by
  obtain ⟨hor, hornone, hand, handnone⟩ := C4_or_and_short_circuit
  refine ⟨by rfl, ?_, ?_, ?_, ?_⟩
  · exact hor (.cons (.valueE (BoolValue false)) .nil)
      (.cons (.paramE (StringParam "boom")) .nil) (.valueE (BoolValue true)) (.bag [])
      (BoolValue true) (by decide)
      ⟨⟨BoolValue false, rfl, rfl, by decide⟩, trivial⟩ rfl (by decide)
  · exact hornone (.cons (.valueE (BoolValue false)) (.cons (.valueE (BoolValue false)) .nil))
      (.bag []) (by decide)
      ⟨⟨BoolValue false, rfl, rfl, by decide⟩, ⟨BoolValue false, rfl, rfl, by decide⟩, trivial⟩
  · exact hand (.cons (.valueE (BoolValue true)) .nil)
      (.cons (.paramE (StringParam "boom")) .nil) (.valueE (BoolValue false)) (.bag [])
      (BoolValue false) (by decide)
      ⟨⟨BoolValue true, rfl, rfl, by decide⟩, trivial⟩ rfl (by decide)
  · exact handnone (.cons (.valueE (BoolValue true)) (.cons (.valueE (BoolValue true)) .nil))
      (.bag []) (by decide)
      ⟨⟨BoolValue true, rfl, rfl, by decide⟩, ⟨BoolValue true, rfl, rfl, by decide⟩, trivial⟩

mutual

theorem roundtripExpr (e : Expr) (hw : wellKinded e = true) (hl : letFree e = true) :
    unmarshalExpr (marshalExpr e) = .ok e := by
  cases e with
  | valueE v =>
    obtain ⟨k, t, d⟩ := v
    simp only [wellKinded, beq_iff_eq] at hw
    subst hw
    rfl
  | paramE p =>
    obtain ⟨k, t, n⟩ := p
    simp only [wellKinded, beq_iff_eq] at hw
    subst hw
    rfl
  | notE ops =>
    simp only [wellKinded] at hw
    simp only [letFree] at hl
    simp only [marshalExpr, unmarshalExpr]
    rw [roundtripList ops hw hl]
  | andE ops =>
    simp only [wellKinded] at hw
    simp only [letFree] at hl
    simp only [marshalExpr, unmarshalExpr]
    rw [roundtripList ops hw hl]
  | orE ops =>
    simp only [wellKinded] at hw
    simp only [letFree] at hl
    simp only [marshalExpr, unmarshalExpr]
    rw [roundtripList ops hw hl]
  | eqE ops =>
    simp only [wellKinded] at hw
    simp only [letFree] at hl
    simp only [marshalExpr, unmarshalExpr]
    rw [roundtripList ops hw hl]
  | inE ops =>
    simp only [wellKinded] at hw
    simp only [letFree] at hl
    simp only [marshalExpr, unmarshalExpr]
    rw [roundtripList ops hw hl]
  | gtE ops =>
    simp only [wellKinded] at hw
    simp only [letFree] at hl
    simp only [marshalExpr, unmarshalExpr]
    rw [roundtripList ops hw hl]
  | gteE ops =>
    simp only [wellKinded] at hw
    simp only [letFree] at hl
    simp only [marshalExpr, unmarshalExpr]
    rw [roundtripList ops hw hl]
  | ltE ops =>
    simp only [wellKinded] at hw
    simp only [letFree] at hl
    simp only [marshalExpr, unmarshalExpr]
    rw [roundtripList ops hw hl]
  | lteE ops =>
    simp only [wellKinded] at hw
    simp only [letFree] at hl
    simp only [marshalExpr, unmarshalExpr]
    rw [roundtripList ops hw hl]
  | fnvE ops =>
    simp only [wellKinded] at hw
    simp only [letFree] at hl
    simp only [marshalExpr, unmarshalExpr]
    rw [roundtripList ops hw hl]
  | percentileE ops =>
    simp only [wellKinded] at hw
    simp only [letFree] at hl
    simp only [marshalExpr, unmarshalExpr]
    rw [roundtripList ops hw hl]
  | letE ops =>
    simp only [letFree] at hl
    exact absurd hl (by simp)
termination_by structural e

theorem roundtripList (l : ExprList) (hw : wellKindedList l = true)
    (hl : letFreeList l = true) :
    unmarshalOperands (marshalList l) = .ok l := by
  cases l with
  | nil => rfl
  | cons x xs =>
    simp only [wellKindedList, Bool.and_eq_true] at hw
    simp only [letFreeList, Bool.and_eq_true] at hl
    simp only [marshalList, unmarshalOperands]
    rw [roundtripExpr x hw.1 hl.1, roundtripList xs hw.2 hl.2]
termination_by structural l

end

/-- C2 (amended): JSON marshalling round-trips structurally for
every builder-constructed AST that contains no `Let` node: decoding
the encoding yields the same AST. -/
theorem C2_json_roundtrip_letfree (e : Expr) (hw : wellKinded e = true)
    (hl : letFree e = true) :
    unmarshalExpr (marshalExpr e) = .ok e :=
  roundtripExpr e hw hl

/-- C2 (counterexample): a `Let` node does not round-trip —
`unmarshalExpr` has no `"let"` case, so the marshalled form of
`Let(x:int64, 3, #true)` fails to decode with `unknown expression kind
let`, refuting the claim for the full builder API. -/
theorem C2_counterexample :
    unmarshalExpr (marshalExpr (Rule.Let (.paramE (Int64Param "x"))
        (.valueE (Int64Value 3)) (.valueE (BoolValue true))))
      = .error "unknown expression kind let" := by
  rfl

/-- C2 (witness): the amended round-trip at a concrete let-free
AST covering values, params and nested operators. -/
theorem C2_json_roundtrip_witness :
    unmarshalExpr (marshalExpr (Rule.And (Rule.Not (.valueE (BoolValue false)))
        (Rule.Eq (.paramE (StringParam "foo")) (.valueE (StringValue "bar")) .nil) .nil))
      = .ok (Rule.And (Rule.Not (.valueE (BoolValue false)))
          (Rule.Eq (.paramE (StringParam "foo")) (.valueE (StringValue "bar")) .nil) .nil) :=
  C2_json_roundtrip_letfree
    (Rule.And (Rule.Not (.valueE (BoolValue false)))
      (Rule.Eq (.paramE (StringParam "foo")) (.valueE (StringValue "bar")) .nil) .nil)
    (by rfl) (by rfl)
